import Mathlib

/-!
Shallow embedding of the heuristic extraction and qualification engine of
main.py: the currency token parser, the field extractor, the location
classifier, the yield calculator, the qualification filter and the record
assembler and ranker.  Python strings are modelled as lists of characters,
machine floats as rationals, absent values as Option.  Regular expressions
are modelled by hand as leftmost searches with greedy, backtracking
repetition, following the semantics of the Python re module on the
concrete patterns of the source.
-/

/-- Lowercasing as performed by the Python str.lower method, restricted to
the character repertoire appearing in the tables and patterns of main.py
(ASCII letters plus the accented capitals used there). -/
def pyLower (c : Char) : Char :=
  if 'A' ≤ c ∧ c ≤ 'Z' then Char.ofNat (c.toNat + 32)
  else if c = 'É' then 'é'
  else if c = 'È' then 'è'
  else if c = 'Ê' then 'ê'
  else if c = 'À' then 'à'
  else if c = 'Â' then 'â'
  else if c = 'Î' then 'î'
  else if c = 'Ô' then 'ô'
  else if c = 'Û' then 'û'
  else if c = 'Ç' then 'ç'
  else if c = 'Ë' then 'ë'
  else if c = 'Ï' then 'ï'
  else c

/-- Characters matched by the whitespace class of the Python re module
(also stripped by the float constructor), restricted to the repertoire
relevant to this program. -/
def pySpace (c : Char) : Bool :=
  c = ' ' || c = '\t' || c = '\n' || c = '\r' || c = '\x0b' || c = '\x0c' ||
  c = '\xa0' || c = '\u202F'

/-- Head class of the captured group of the money regex of main.py line 72:
a digit or a whitespace character. -/
def moneyHeadClass (c : Char) : Bool := c.isDigit || pySpace c

/-- Body class of the captured group of the money regex: a digit, a
whitespace character, a period or a comma. -/
def moneyBodyClass (c : Char) : Bool := c.isDigit || pySpace c || c = '.' || c = ','

/-- Tail of the money regex after the captured group (whitespace star then
the euro sign): skipping whitespace must reach a euro sign.  A greedy
whitespace star followed by a mandatory non-space character is equivalent
to this direct scan. -/
def wsEuro : List Char → Bool
  | [] => false
  | c :: rest => if c = '€' then true else if pySpace c then wsEuro rest else false

/-- Greedy backtracking over the two-or-more repetition of the money regex:
the longest repetition length k with 2 ≤ k whose remainder matches the
tail wins; run is the maximal run of body-class characters and rest the
remainder of the text after it. -/
def moneyLens (run rest : List Char) : Nat → Option (List Char)
  | 0 => none
  | Nat.succ k =>
    if 2 ≤ Nat.succ k && wsEuro (run.drop (Nat.succ k) ++ rest) then
      some (run.take (Nat.succ k))
    else moneyLens run rest k

/-- Leftmost search for the money regex of main.py line 72: a head-class
character followed by two or more body-class characters then optional
whitespace and a euro sign; returns the captured group (the head character
plus the matched repetition). -/
def moneyFind : List Char → Option (List Char)
  | [] => none
  | c :: rest =>
    if moneyHeadClass c then
      match moneyLens (rest.takeWhile moneyBodyClass) (rest.dropWhile moneyBodyClass)
          (rest.takeWhile moneyBodyClass).length with
      | some g => some (c :: g)
      | none => moneyFind rest
    else moneyFind rest

/-- Numeric value of a digit string. -/
def digitsToNat (cs : List Char) : Nat := cs.foldl (fun n c => 10 * n + (c.toNat - 48)) 0

/-- Parsing of the normalized amount by the Python float constructor,
restricted to the character repertoire the money function can hand it:
optional surrounding whitespace, digits and at most one decimal point
(any other character makes the conversion fail, hence None). -/
def pyFloat (cs : List Char) : Option ℚ :=
  let t := ((cs.dropWhile pySpace).reverse.dropWhile pySpace).reverse
  let ds := t.takeWhile Char.isDigit
  match t.dropWhile Char.isDigit with
  | [] => if ds.isEmpty then none else some ((digitsToNat ds : ℕ) : ℚ)
  | c :: fs =>
    if c = '.' && fs.all Char.isDigit && !(ds.isEmpty && fs.isEmpty) then
      some (((digitsToNat ds : ℕ) : ℚ) + ((digitsToNat fs : ℕ) : ℚ) / (10:ℚ) ^ fs.length)
    else none

/-- The money function of main.py lines 68-85: on a non-empty text, replace
non breaking spaces by spaces, search for the rightmost-anchored amount
group before a euro sign (leftmost match of the regex), then strip space
variants and periods, turn the comma into a decimal point and parse the
result as a float; any failure yields None. -/
def money (cs : List Char) : Option ℚ :=
  if cs.isEmpty then none
  else
    let t := cs.map (fun c => if c = '\xa0' then ' ' else c)
    match moneyFind t with
    | none => none
    | some g =>
      pyFloat ((g.filter (fun c => !(c = ' ' || c = '\u202F' || c = '.'))).map
        (fun c => if c = ',' then '.' else c))

/-- The Python idiom x or 0 on an optional float: the value when truthy
(present and nonzero), zero otherwise. -/
def pyOrZero : Option ℚ → ℚ
  | some v => if v = 0 then 0 else v
  | none => 0

/-- The Python idiom a or b on optional floats: a when truthy (present and
nonzero), b otherwise. -/
def pyOr (a b : Option ℚ) : Option ℚ :=
  match a with
  | some v => if v = 0 then b else some v
  | none => b

/-- Round half to even, the rounding of the Python round builtin. -/
def rndHalfEven (x : ℚ) : ℤ :=
  let n := ⌊x⌋
  let f := x - n
  if f < 1/2 then n else if 1/2 < f then n + 1 else if Even n then n else n + 1

/-- Rounding to two decimal places as performed by round(x, 2) in main.py
lines 257-258.  Python rounds the nearest binary float; the claims
exercise no case where that differs from exact rational rounding. -/
def round2 (x : ℚ) : ℚ := (rndHalfEven (x * 100) : ℚ) / 100

/-- Gross yield of main.py line 257: defined when the price and the rent
are truthy (present and nonzero) and the price is positive, mirroring the
Python condition prix and loyer and prix greater than zero. -/
def brut : Option ℚ → Option ℚ → Option ℚ
  | some p, some l => if p ≠ 0 ∧ l ≠ 0 ∧ 0 < p then some (round2 (l / p * 100)) else none
  | _, _ => none

/-- Net yield of main.py line 258: same guard as the gross yield, with
missing charges and missing tax coerced to zero inside the arithmetic
through the Python idiom x or 0. -/
def net (prix loyer charges taxe : Option ℚ) : Option ℚ :=
  match prix, loyer with
  | some p, some l =>
    if p ≠ 0 ∧ l ≠ 0 ∧ 0 < p then
      some (round2 ((l - pyOrZero charges - pyOrZero taxe) / p * 100))
    else none
  | _, _ => none

/-- Price-band rejection of main.py line 253: a candidate whose price is
present and outside the closed interval from pmin to pmax is dropped. -/
def priceOutside (prix : Option ℚ) (pmin pmax : ℚ) : Bool :=
  match prix with
  | some p => decide (p < pmin) || decide (pmax < p)
  | none => false

/-- Yield rejection of main.py line 261: a candidate whose gross and net
yields, each read through the Python idiom x or 0, are both strictly
below the threshold is dropped. -/
def yieldTooLow (brutv netv : Option ℚ) (minY : ℚ) : Bool :=
  decide (pyOrZero brutv < minY) && decide (pyOrZero netv < minY)

/-- Combined qualification decision of main.py lines 253-261: true exactly
when the candidate survives both continue statements. -/
def keepCandidate (prix brutv netv : Option ℚ) (pmin pmax minY : ℚ) : Bool :=
  if priceOutside prix pmin pmax then false
  else if yieldTooLow brutv netv minY then false
  else true

/-- Apostrophe character as a string, built from its code point, used to
spell the street names of the prime-axis table verbatim. -/
def apoc : String := String.mk [Char.ofNat 39]

/-- The AXES_PRIME table of main.py lines 136-181: city to list of prime
commercial streets. -/
def AXES_PRIME : List (String × List String) :=
  [("Paris", ["Champs-Élysées", "Rue de Rivoli", "Boulevard Haussmann",
              "Rue Saint-Honoré", "Avenue Montaigne"]),
   ("Lyon", ["Rue de la République", "Rue Victor Hugo", "Rue Mercière"]),
   ("Marseille", ["Rue Saint-Ferréol", "La Canebière"]),
   ("Bordeaux", ["Rue Sainte-Catherine", "Cours de l" ++ apoc ++ "Intendance"]),
   ("Toulouse", ["Rue d" ++ apoc ++ "Alsace-Lorraine", "Rue Saint-Rome"]),
   ("Lille", ["Rue de Béthune", "Rue Neuve"]),
   ("Nice", ["Avenue Jean Médecin", "Rue Masséna"]),
   ("Nantes", ["Rue Crébillon", "Rue du Calvaire"]),
   ("Montpellier", ["Rue de la Loge", "Comédie"]),
   ("Rennes", ["Rue Le Bastard", "Rue d" ++ apoc ++ "Antrain"]),
   ("Strasbourg", ["Grand" ++ apoc ++ "Rue", "Rue des Grandes Arcades"]),
   ("Grenoble", ["Rue Félix Poulat", "Rue de Bonne"]),
   ("Dijon", ["Rue de la Liberté"]),
   ("Angers", ["Rue Lenepveu"]),
   ("Reims", ["Rue de Vesle"]),
   ("Tours", ["Rue Nationale"]),
   ("Clermont-Ferrand", ["Rue du 11 Novembre"]),
   ("Saint-Étienne", ["Rue des Martyrs de Vingré"]),
   ("Nîmes", ["Rue de l" ++ apoc ++ "Aspic"]),
   ("Avignon", ["Rue de la République"]),
   ("Béziers", ["Allées Paul Riquet"]),
   ("Perpignan", ["Rue Maréchal Foch"]),
   ("Toulon", ["Rue d" ++ apoc ++ "Alger"]),
   ("Le Havre", ["Rue de Paris"]),
   ("Rouen", ["Rue du Gros-Horloge"]),
   ("Orléans", ["Rue de la République"]),
   ("Metz", ["Rue Serpenoise"]),
   ("Nancy", ["Rue Saint-Jean"]),
   ("Caen", ["Rue Saint-Pierre"]),
   ("Poitiers", ["Rue Magenta"]),
   ("Limoges", ["Rue de la Boucherie"]),
   ("Annecy", ["Rue Carnot"]),
   ("Aix-en-Provence", ["Cours Mirabeau"]),
   ("Bayonne", ["Rue d" ++ apoc ++ "Espagne"]),
   ("Pau", ["Rue Joffre"]),
   ("La Rochelle", ["Rue du Palais"]),
   ("Valence", ["Rue Victor Hugo"]),
   ("Chambéry", ["Rue de Boigne"]),
   ("Mulhouse", ["Rue du Sauvage"]),
   ("Brest", ["Rue de Siam"]),
   ("Quimper", ["Rue Kéréon"]),
   ("Vannes", ["Rue Saint-Vincent"]),
   ("Amiens", ["Rue des Trois Cailloux"]),
   ("Chartres", ["Rue du Bois Merrain"])]

/-- Dictionary lookup with the empty list as default, mirroring the Python
expression axes_map.get(city, []). -/
def dictGet (m : List (String × List String)) (k : String) : List String :=
  match m.find? (fun e => e.1 == k) with
  | some e => e.2
  | none => []

/-- Containment of a contiguous character sequence, mirroring the Python
in operator on strings. -/
def isSubList (needle : List Char) : List Char → Bool
  | [] => needle.isEmpty
  | c :: rest => needle.isPrefixOf (c :: rest) || isSubList needle rest

/-- Python str.lower on a whole string. -/
def lowerS (s : String) : String := String.mk (s.data.map pyLower)

/-- Python substring test needle in hay. -/
def containsSub (needle hay : String) : Bool := isSubList needle.data hay.data

/-- Generic high-quality-location keywords of main.py line 197: the regex
alternation expanded, the class of dash-or-space giving the two centre
ville forms.  The pattern is lowercase and searched case-insensitively,
which on this repertoire is containment in the lowercased text. -/
def keywords1bis : List String :=
  ["centre-ville", "centre ville", "angle", "rue piétonne", "fort flux",
   "zone prime", "coeur de ville"]

/-- The score_emplacement function of main.py lines 192-199. -/
def score_emplacement (city raw : String) (axesMap : List (String × List String)) : String :=
  let axes := dictGet axesMap city
  if axes.any (fun ax => (ax != "") && containsSub (lowerS ax) (lowerS raw)) then "N°1"
  else if keywords1bis.any (fun k => containsSub k (lowerS raw)) then "1bis"
  else "2"

/-- Tier wiring of main.py line 265: scoring happens only when a city was
detected, otherwise the tier is the empty string. -/
def emplOf (detected raw : String) : String :=
  if detected != "" then score_emplacement detected raw AXES_PRIME else ""

/-- Case-insensitive literal prefix match (the IGNORECASE flag of the re
module on a literal pattern fragment). -/
def matchCI : List Char → List Char → Bool
  | [], _ => true
  | _ :: _, [] => false
  | p :: ps, c :: cs => (pyLower p == pyLower c) && matchCI ps cs

/-- First success of an option-valued function along a list: the order of
the list is the depth-first priority order of a backtracking regex. -/
def firstSome {α β : Type} : List α → (α → Option β) → Option β
  | [], _ => none
  | a :: rest, f =>
    match f a with
    | some b => some b
    | none => firstSome rest f

/-- Descending enumeration n, n-1, ..., 0: the candidate lengths of a
greedy repetition, longest first. -/
def enumDesc : Nat → List Nat
  | 0 => [0]
  | Nat.succ n => Nat.succ n :: enumDesc n

/-- Length of the maximal whitespace run. -/
def wsRun (cs : List Char) : Nat := (cs.takeWhile pySpace).length

/-- Candidate consumed lengths of the optional colon-or-dash part, longer
first (a greedy option). -/
def enumCD (cs : List Char) : List Nat :=
  if cs.head? = some ':' ∨ cs.head? = some '-' then [1, 0] else [0]

/-- Tail of the find_eur pattern after its label: whitespace star, optional
colon or dash, whitespace star, up to span arbitrary characters, then the
euro sign; greedy depth-first backtracking returning the consumed length.
The matched euro sign is the last one inside the greedy window. -/
def tailEuro (span : Nat) (cs : List Char) : Option Nat :=
  firstSome (enumDesc (wsRun cs)) fun a =>
  firstSome (enumCD (cs.drop a)) fun c =>
  firstSome (enumDesc (wsRun (cs.drop (a + c)))) fun b =>
  firstSome (enumDesc (min span (cs.length - (a + c + b)))) fun k =>
    if (cs.drop (a + c + b + k)).head? = some '€' then some (a + c + b + k + 1) else none

/-- One top-level alternative of a find_eur label pattern: a literal (an
expansion of its optional groups) and, when the euro tail binds to it,
the window span.  The label alternations inserted at main.py lines 97-100
are not parenthesised, so the tail of the pattern binds only to the last
top-level alternative; the earlier alternatives match bare and their
match carries no euro sign. -/
abbrev EuroAlt := List Char × Option Nat

/-- Match attempt of the find_eur pattern at one text position: try the
alternatives in pattern order, with the euro tail where it binds. -/
def altsMatchAt (alts : List EuroAlt) (cs : List Char) : Option Nat :=
  firstSome alts fun alt =>
    if matchCI alt.1 cs then
      match alt.2 with
      | none => some alt.1.length
      | some span => (tailEuro span (cs.drop alt.1.length)).map (fun t => alt.1.length + t)
    else none

/-- Leftmost regex search: at each position try the alternatives in order
and return the matched span of the text. -/
def searchAlts (alts : List EuroAlt) : List Char → Option (List Char)
  | [] => none
  | c :: rest =>
    match altsMatchAt alts (c :: rest) with
    | some len => some ((c :: rest).take len)
    | none => searchAlts alts rest

/-- The find_eur helper of main.py lines 93-95: search the label pattern
with its euro tail and run money on the whole matched span. -/
def find_eur (alts : List EuroAlt) (text : List Char) : Option ℚ :=
  (searchAlts alts text).bind money

/-- Expanded alternatives of the price label pattern of main.py line 97;
only the Price alternative carries the euro tail (window 80). -/
def prixAlts : List EuroAlt :=
  [("Prix de vente".data, none), ("Prix".data, none),
   ("Prix net vendeur".data, none), ("Price".data, some 80)]

/-- Expanded alternatives of the rent label pattern of main.py line 98;
only the last alternation branch carries the euro tail (window 90). -/
def loyerAlts : List EuroAlt :=
  [("Loyer annuel HT".data, none), ("Loyer annuel".data, none),
   ("Revenu locatif".data, none),
   ("Loyers nets".data, some 90), ("Loyers net".data, some 90),
   ("Loyer nets".data, some 90), ("Loyer net".data, some 90)]

/-- Expanded alternatives of the charges label pattern of main.py line 99:
a single parenthesised-free branch, so the euro tail (window 60) applies
to both expansions of the optional group. -/
def chargesAlts : List EuroAlt :=
  [("Charges locatives".data, some 60), ("Charges".data, some 60)]

/-- Expanded alternatives of the property-tax label pattern of main.py
line 100; only the TF branch carries the euro tail (window 60). -/
def taxeAlts : List EuroAlt :=
  [("Taxe fonciere".data, none), ("Taxe foncière".data, none), ("TF".data, some 60)]

/-- Scan for the percent sign after optional whitespace: a greedy
whitespace star followed by a mandatory percent sign is this direct
scan. -/
def wsPercent (cs : List Char) : Bool := (cs.dropWhile pySpace).head? = some '%'

/-- Percentage tail of the stated-yield pattern of main.py line 102 after
the Rendement label: whitespace star, optional colon or dash, whitespace
star, a digit run with an optional greedy decimal part, whitespace star
and the percent sign.  Backtracking inside a digit run only uncovers
digits, which are never the percent sign, so the digit runs are maximal;
the optional decimal part is tried first, as a greedy option. -/
def tailRendAt (cs : List Char) : Option ℚ :=
  firstSome (enumDesc (wsRun cs)) fun a =>
  firstSome (enumCD (cs.drop a)) fun c =>
  firstSome (enumDesc (wsRun (cs.drop (a + c)))) fun b =>
    let t := cs.drop (a + c + b)
    let ds := t.takeWhile Char.isDigit
    if ds.isEmpty then none
    else
      let t2 := t.drop ds.length
      let withFrac : Option ℚ :=
        if t2.head? = some '.' ∨ t2.head? = some ',' then
          let fs := (t2.drop 1).takeWhile Char.isDigit
          if !fs.isEmpty && wsPercent (t2.drop (1 + fs.length)) then
            some (((digitsToNat ds : ℕ) : ℚ) + ((digitsToNat fs : ℕ) : ℚ) / (10:ℚ) ^ fs.length)
          else none
        else none
      match withFrac with
      | some v => some v
      | none => if wsPercent t2 then some ((digitsToNat ds : ℕ) : ℚ) else none

/-- The stated-yield extraction of main.py lines 102-103: leftmost search
for the Rendement label followed by the percentage tail; the captured
number has its comma turned into a decimal point and is parsed as a
float, which the rational value of tailRendAt renders. -/
def searchRend : List Char → Option ℚ
  | [] => none
  | c :: rest =>
    if matchCI "Rendement".data (c :: rest) then
      match tailRendAt ((c :: rest).drop 9) with
      | some v => some v
      | none => searchRend rest
    else searchRend rest

/-- ASCII letters and digits, the explicit classes of the bail and
locataire patterns. -/
def asciiAlnum (c : Char) : Bool :=
  ('A' ≤ c && c ≤ 'Z') || ('a' ≤ c && c ≤ 'z') || c.isDigit

/-- Character class of the bail description span of main.py line 105. -/
def bailClass (c : Char) : Bool :=
  asciiAlnum c || c = '/' || c = '-' || c = '.' || c = ',' || pySpace c

/-- Character class of the locataire description span of main.py
line 108. -/
def locClass (c : Char) : Bool :=
  asciiAlnum c || c = '-' || c = '.' || c = ',' || pySpace c

/-- Description tail of the bail and locataire patterns: whitespace star,
optional colon or dash, whitespace star, then a greedy run of class
characters of length at least mn and at most 80; greedy depth-first
backtracking over the whitespace stars, whose characters the class also
accepts, returning the consumed length. -/
def tailSpan (cls : Char → Bool) (mn : Nat) (cs : List Char) : Option Nat :=
  firstSome (enumDesc (wsRun cs)) fun a =>
  firstSome (enumCD (cs.drop a)) fun c =>
  firstSome (enumDesc (wsRun (cs.drop (a + c)))) fun b =>
    let r := min 80 ((cs.drop (a + c + b)).takeWhile cls).length
    if mn ≤ r then some (a + c + b + r) else none

/-- Leftmost search for a parenthesised label alternation (every
alternative carries the tail) followed by a description span; returns the
whole matched span of the text. -/
def searchSpan (labels : List (List Char)) (cls : Char → Bool) (mn : Nat) :
    List Char → Option (List Char)
  | [] => none
  | c :: rest =>
    match firstSome labels (fun l =>
        if matchCI l (c :: rest) then
          (tailSpan cls mn ((c :: rest).drop l.length)).map (fun t => l.length + t)
        else none) with
    | some len => some ((c :: rest).take len)
    | none => searchSpan labels cls mn rest

/-- Label alternatives of the bail pattern of main.py line 105. -/
def bailLabels : List (List Char) :=
  ["Bail".data, "Type de bail".data, "Échéance bail".data]

/-- Label alternatives of the locataire pattern of main.py line 108. -/
def locLabels : List (List Char) :=
  ["Locataire".data, "Enseigne".data, "Occupant".data]

/-- Leftmost case-insensitive search for one of the activity keywords of
main.py line 111; the result is the matched span of the text itself. -/
def searchLit (lits : List (List Char)) : List Char → Option (List Char)
  | [] => none
  | c :: rest =>
    match firstSome lits (fun l =>
        if matchCI l (c :: rest) then some ((c :: rest).take l.length) else none) with
    | some g => some g
    | none => searchLit lits rest

/-- Activity keywords of main.py line 111, the single-character classes of
the pattern expanded into both spellings. -/
def activiteLits : List (List Char) :=
  ["Restauration".data, "Pharmacie".data, "Boulangerie".data, "Banque".data,
   "Santé".data, "Sante".data, "Supermarché".data, "Supermarche".data,
   "Retail".data]

/-- Whitespace normalization of main.py line 91: every maximal whitespace
run becomes a single space; the flag records whether the previous
character was whitespace. -/
def normWS : Bool → List Char → List Char
  | _, [] => []
  | prevWS, c :: rest =>
    if pySpace c then
      if prevWS then normWS true rest else ' ' :: normWS true rest
    else c :: normWS false rest

/-- The field record returned by parse_generic, main.py lines 114-124. -/
structure FieldRec where
  prix : Option ℚ
  loyer : Option ℚ
  charges : Option ℚ
  taxe : Option ℚ
  rendement_annonce : Option ℚ
  bail : Option String
  locataire : Option String
  activite : Option String
  raw : String

/-- The parse_generic function of main.py lines 87-131.  The markup
stripping by BeautifulSoup cannot be embedded; its outcome is the input:
ok with the extracted visible page text on success, error when anything
inside the try block raises, which is the except branch of lines 125-131.
Everything after the text extraction is embedded faithfully, including
the whitespace normalization of line 91. -/
def parse_generic : Except Unit String → FieldRec
  | Except.error _ =>
    { prix := none, loyer := none, charges := none, taxe := none,
      rendement_annonce := none, bail := none, locataire := none,
      activite := none, raw := "" }
  | Except.ok s =>
    let text := normWS false s.data
    { prix := pyOr (find_eur prixAlts text) (money text)
      loyer := find_eur loyerAlts text
      charges := find_eur chargesAlts text
      taxe := find_eur taxeAlts text
      rendement_annonce := searchRend text
      bail := (searchSpan bailLabels bailClass 3 text).map String.mk
      locataire := (searchSpan locLabels locClass 2 text).map String.mk
      activite := (searchLit activiteLits text).map String.mk
      raw := String.mk text }

/-- One output row of main.py lines 267-275, restricted to the fields the
deduplication and the ranking of lines 281-285 read: the URL key, the
price, the two yield columns and the location tier.  The remaining output
columns do not influence those steps. -/
structure Row where
  url : String
  prix : Option ℚ
  brutPct : Option ℚ
  netPct : Option ℚ
  empl : String
deriving DecidableEq

/-- Tier rank of main.py lines 283-284: the order dictionary plus the
fillna default of 3 for any other value. -/
def tierRank (s : String) : Nat :=
  if s = "N°1" then 0 else if s = "1bis" then 1 else if s = "2" then 2 else 3

/-- Strict before relation of one descending yield column of the sort of
main.py line 285, where a missing value sorts last (the pandas
na_position last semantics, applied per sort key). -/
def oDescLT : Option ℚ → Option ℚ → Prop
  | some a, some b => b < a
  | some _, none => True
  | none, _ => False

/-- Weak before relation of one descending yield column with missing
values last. -/
def oDescLE : Option ℚ → Option ℚ → Prop
  | some a, some b => b ≤ a
  | some _, none => True
  | none, some _ => False
  | none, none => True

instance : (x y : Option ℚ) → Decidable (oDescLT x y)
  | some a, some b => inferInstanceAs (Decidable (b < a))
  | some _, none => Decidable.isTrue trivial
  | none, some _ => Decidable.isFalse (fun h => h)
  | none, none => Decidable.isFalse (fun h => h)

instance : (x y : Option ℚ) → Decidable (oDescLE x y)
  | some a, some b => inferInstanceAs (Decidable (b ≤ a))
  | some _, none => Decidable.isTrue trivial
  | none, some _ => Decidable.isFalse (fun h => h)
  | none, none => Decidable.isTrue trivial

/-- Row order realised by the sort of main.py line 285: ascending tier
rank, then descending net yield, then descending gross yield, missing
yields last within their tier. -/
def rowLE (a b : Row) : Prop :=
  tierRank a.empl < tierRank b.empl ∨
    (tierRank a.empl = tierRank b.empl ∧
      (oDescLT a.netPct b.netPct ∨
        (a.netPct = b.netPct ∧ oDescLE a.brutPct b.brutPct)))

instance (a b : Row) : Decidable (rowLE a b) := by
  unfold rowLE; infer_instance

/-- First-occurrence deduplication by URL of main.py line 281: the pandas
drop_duplicates on the URL column keeps the first row of each key and
preserves the order of the remaining rows; seen accumulates the URL keys
already emitted. -/
def dedupGo (seen : List String) : List Row → List Row
  | [] => []
  | r :: rest =>
    if r.url ∈ seen then dedupGo seen rest
    else r :: dedupGo (r.url :: seen) rest

/-- Deduplication entry point for main.py line 281. -/
def dedupByURL (rows : List Row) : List Row := dedupGo [] rows

/-- Assembly of the final frame of main.py lines 281-285: deduplicate by
URL, then sort by the row order.  The pandas quicksort fixes some
deterministic order of rows with equal keys; any sorted permutation
realises the documented key, rendered here by insertion sort. -/
def finalRows (rows : List Row) : List Row :=
  List.insertionSort rowLE (dedupByURL rows)

/-! Helper lemmas. -/

theorem pyOrZero_eq_getD (x : Option ℚ) : pyOrZero x = x.getD 0 := by
  cases x with
  | none => rfl
  | some v =>
    by_cases h : v = 0
    · simp [pyOrZero, h]
    · simp [pyOrZero, h]

theorem pyFloat_nonneg (cs : List Char) (v : ℚ) (h : pyFloat cs = some v) : 0 ≤ v := by
  unfold pyFloat at h
  simp only [] at h
  split at h
  · split at h
    · exact absurd h (by simp)
    · obtain rfl : ((digitsToNat _ : ℕ) : ℚ) = v := by injection h
      positivity
  · split at h
    · obtain rfl : _ = v := by injection h
      positivity
    · exact absurd h (by simp)

theorem money_nonneg (cs : List Char) (v : ℚ) (h : money cs = some v) : 0 ≤ v := by
  unfold money at h
  simp only [] at h
  split at h
  · exact absurd h (by simp)
  · split at h
    · exact absurd h (by simp)
    · exact pyFloat_nonneg _ _ h


theorem oDescLT_trans {x y z : Option ℚ} (h1 : oDescLT x y) (h2 : oDescLT y z) :
    oDescLT x z := by
  cases x <;> cases y <;> cases z <;> simp [oDescLT] at *
  exact lt_trans h2 h1

theorem oDescLE_trans {x y z : Option ℚ} (h1 : oDescLE x y) (h2 : oDescLE y z) :
    oDescLE x z := by
  cases x <;> cases y <;> cases z <;> simp [oDescLE] at *
  exact le_trans h2 h1

theorem oDesc_trichotomy (x y : Option ℚ) : oDescLT x y ∨ x = y ∨ oDescLT y x := by
  cases x with
  | none =>
    cases y with
    | none => exact Or.inr (Or.inl rfl)
    | some b => exact Or.inr (Or.inr trivial)
  | some a =>
    cases y with
    | none => exact Or.inl trivial
    | some b =>
      rcases lt_trichotomy a b with h | h | h
      · exact Or.inr (Or.inr h)
      · exact Or.inr (Or.inl (by rw [h]))
      · exact Or.inl h

theorem oDescLE_total (x y : Option ℚ) : oDescLE x y ∨ oDescLE y x := by
  cases x with
  | none =>
    cases y with
    | none => exact Or.inl trivial
    | some b => exact Or.inr trivial
  | some a =>
    cases y with
    | none => exact Or.inl trivial
    | some b => exact le_total b a

instance : IsTrans Row rowLE := by
  constructor
  intro a b c h1 h2
  rcases h1 with h1 | ⟨e1, h1⟩
  · rcases h2 with h2 | ⟨e2, h2⟩
    · exact Or.inl (lt_trans h1 h2)
    · exact Or.inl (e2 ▸ h1)
  · rcases h2 with h2 | ⟨e2, h2⟩
    · exact Or.inl (by rw [e1]; exact h2)
    · refine Or.inr ⟨e1.trans e2, ?_⟩
      rcases h1 with h1 | ⟨q1, h1⟩
      · rcases h2 with h2 | ⟨q2, h2⟩
        · exact Or.inl (oDescLT_trans h1 h2)
        · exact Or.inl (q2 ▸ h1)
      · rcases h2 with h2 | ⟨q2, h2⟩
        · exact Or.inl (by rw [q1]; exact h2)
        · exact Or.inr ⟨q1.trans q2, oDescLE_trans h1 h2⟩

instance : IsTotal Row rowLE := by
  constructor
  intro a b
  rcases Nat.lt_trichotomy (tierRank a.empl) (tierRank b.empl) with h | h | h
  · exact Or.inl (Or.inl h)
  · rcases oDesc_trichotomy a.netPct b.netPct with hn | hn | hn
    · exact Or.inl (Or.inr ⟨h, Or.inl hn⟩)
    · rcases oDescLE_total a.brutPct b.brutPct with hg | hg
      · exact Or.inl (Or.inr ⟨h, Or.inr ⟨hn, hg⟩⟩)
      · exact Or.inr (Or.inr ⟨h.symm, Or.inr ⟨hn.symm, hg⟩⟩)
    · exact Or.inr (Or.inr ⟨h.symm, Or.inl hn⟩)
  · exact Or.inr (Or.inl h)

theorem dedupGo_mem_spec (l : List Row) : ∀ (seen : List String) (r : Row),
    r ∈ dedupGo seen l →
    r.url ∉ seen ∧ l.find? (fun x => x.url == r.url) = some r := by
  induction l with
  | nil =>
    intro seen r h
    simp [dedupGo] at h
  | cons a rest ih =>
    intro seen r h
    by_cases hc : a.url ∈ seen
    · rw [dedupGo, if_pos hc] at h
      obtain ⟨h1, h2⟩ := ih seen r h
      have hne : (a.url == r.url) = false := by
        refine beq_eq_false_iff_ne.mpr ?_
        intro he
        exact h1 (he ▸ hc)
      exact ⟨h1, by rw [List.find?_cons, hne]; exact h2⟩
    · rw [dedupGo, if_neg hc] at h
      rcases List.mem_cons.mp h with rfl | h2
      · exact ⟨hc, by rw [List.find?_cons, beq_self_eq_true]⟩
      · obtain ⟨h1, h2⟩ := ih (a.url :: seen) r h2
        have hna : r.url ≠ a.url := fun he => h1 (by rw [he]; exact List.mem_cons_self _ _)
        have hne : (a.url == r.url) = false := beq_eq_false_iff_ne.mpr (Ne.symm hna)
        exact ⟨fun hs => h1 (List.mem_cons_of_mem _ hs), by rw [List.find?_cons, hne]; exact h2⟩

theorem dedupGo_pairwise (l : List Row) : ∀ seen : List String,
    (dedupGo seen l).Pairwise (fun a b => a.url ≠ b.url) := by
  induction l with
  | nil => intro seen; simp [dedupGo]
  | cons a rest ih =>
    intro seen
    by_cases hc : a.url ∈ seen
    · rw [dedupGo, if_pos hc]; exact ih seen
    · rw [dedupGo, if_neg hc]
      refine List.Pairwise.cons ?_ (ih _)
      intro b hb he
      obtain ⟨h1, -⟩ := dedupGo_mem_spec rest (a.url :: seen) b hb
      exact h1 (by rw [← he]; exact List.mem_cons_self _ _)

theorem dedupGo_covers (l : List Row) : ∀ (seen : List String) (r : Row), r ∈ l →
    r.url ∈ seen ∨ ∃ q ∈ dedupGo seen l, q.url = r.url := by
  induction l with
  | nil => intro seen r h; cases h
  | cons a rest ih =>
    intro seen r h
    by_cases hc : a.url ∈ seen
    · rw [dedupGo, if_pos hc]
      rcases List.mem_cons.mp h with rfl | h2
      · exact Or.inl hc
      · exact ih seen r h2
    · rw [dedupGo, if_neg hc]
      rcases List.mem_cons.mp h with rfl | h2
      · exact Or.inr ⟨r, List.mem_cons_self _ _, rfl⟩
      · rcases ih (a.url :: seen) r h2 with hs | ⟨q, hq, he⟩
        · rcases List.mem_cons.mp hs with he | hs2
          · exact Or.inr ⟨a, List.mem_cons_self _ _, he.symm⟩
          · exact Or.inl hs2
        · exact Or.inr ⟨q, List.mem_cons_of_mem _ hq, he⟩

/-! Claim theorems. -/

/-- C1 counterexample: the claim states the yields are defined exactly when
price and rent are present and the price is positive; with price 100,
present and positive, and rent 0, present, the code yields None for both,
because the condition of main.py lines 257-258 reads the rent through
Python truthiness, where a zero float is false. -/
theorem C1_cex_zero_rent :
    (0:ℚ) < 100 ∧ brut (some 100) (some 0) = none ∧
      net (some 100) (some 0) none none = none := by
  refine ⟨by decide, ?_, ?_⟩ <;> simp [brut, net]

/-- C1 amended: gross yield is rent over price times one hundred rounded to
two decimals and net yield the same on rent minus charges-or-zero minus
tax-or-zero, both defined exactly when price and rent are present, the
price is positive and the rent is nonzero (Python truthiness reads a zero
rent as absent); missing charges and tax are coerced to zero only inside
the net arithmetic; the concrete instance of the claim holds, gross 9.0
and net 8.2. -/
theorem C1_amended_yields (p l : ℚ) (charges taxe : Option ℚ) :
    (0 < p → l ≠ 0 →
      brut (some p) (some l) = some (round2 (l / p * 100)) ∧
      net (some p) (some l) charges taxe =
        some (round2 ((l - charges.getD 0 - taxe.getD 0) / p * 100))) ∧
    (¬ (0 < p ∧ l ≠ 0) →
      brut (some p) (some l) = none ∧ net (some p) (some l) charges taxe = none) ∧
    (∀ x : Option ℚ, brut none x = none ∧ brut x none = none ∧
      net none x charges taxe = none ∧ net x none charges taxe = none) ∧
    brut (some 1000000) (some 90000) = some 9 ∧
    net (some 1000000) (some 90000) (some 5000) (some 3000) = some 8.2 := by
  refine ⟨?_, ?_, ?_, ?_, ?_⟩
  · intro hp hl
    have hc : p ≠ 0 ∧ l ≠ 0 ∧ 0 < p := ⟨ne_of_gt hp, hl, hp⟩
    constructor
    · simp only [brut]
      rw [if_pos hc]
    · simp only [net]
      rw [if_pos hc, pyOrZero_eq_getD, pyOrZero_eq_getD]
  · intro hn
    have hc : ¬ (p ≠ 0 ∧ l ≠ 0 ∧ 0 < p) := by
      rintro ⟨h1, h2, h3⟩
      exact hn ⟨h3, h2⟩
    constructor
    · simp only [brut]
      rw [if_neg hc]
    · simp only [net]
      rw [if_neg hc]
  · intro x
    refine ⟨?_, ?_, ?_, ?_⟩ <;> cases x <;> rfl
  · have hc : (1000000:ℚ) ≠ 0 ∧ (90000:ℚ) ≠ 0 ∧ (0:ℚ) < 1000000 := by norm_num
    simp only [brut]
    rw [if_pos hc]
    have h : round2 ((90000:ℚ) / 1000000 * 100) = 9 := by
      unfold round2 rndHalfEven
      norm_num
    rw [h]
  · have hc : (1000000:ℚ) ≠ 0 ∧ (90000:ℚ) ≠ 0 ∧ (0:ℚ) < 1000000 := by norm_num
    simp only [net]
    rw [if_pos hc]
    have h : round2 (((90000:ℚ) - pyOrZero (some 5000) - pyOrZero (some 3000)) / 1000000 * 100) =
        8.2 := by
      unfold round2 rndHalfEven pyOrZero
      norm_num
    rw [h]

theorem C1_amended_yields_witness :
    (0:ℚ) < 1000000 ∧ (90000:ℚ) ≠ 0 ∧
      (brut (some 1000000) (some 90000) = some (round2 ((90000:ℚ) / 1000000 * 100)) ∧
        net (some 1000000) (some 90000) (some 5000) (some 3000) =
          some (round2 (((90000:ℚ) - (some (5000:ℚ)).getD 0 - (some (3000:ℚ)).getD 0) /
            1000000 * 100))) :=
  ⟨by decide, by decide,
    (C1_amended_yields 1000000 90000 (some 5000) (some 3000)).1 (by decide) (by decide)⟩

/-- C10: with the price present and positive but the annual rent exactly
zero, both computed yields are None: main.py lines 257-258 read a zero
rent through Python truthiness, the same as an absent rent, not as a zero
percent yield. -/
theorem C10_zero_rent_like_absent (p : ℚ) (charges taxe : Option ℚ) (_hp : 0 < p) :
    brut (some p) (some 0) = none ∧ net (some p) (some 0) charges taxe = none := by
  have hc : ¬ (p ≠ 0 ∧ (0:ℚ) ≠ 0 ∧ 0 < p) := by
    rintro ⟨-, h2, -⟩
    exact h2 rfl
  constructor
  · simp only [brut]
    rw [if_neg hc]
  · simp only [net]
    rw [if_neg hc]

theorem C10_zero_rent_like_absent_witness :
    (0:ℚ) < 250000 ∧ (brut (some 250000) (some 0) = none ∧
      net (some 250000) (some 0) (some 12) none = none) :=
  ⟨by decide, C10_zero_rent_like_absent 250000 (some 12) none (by decide)⟩

/-- C2: a candidate is dropped by the filter of main.py lines 253-261 iff
its price is present and outside the closed band, or its gross and net
yields, each with None read as zero, are both strictly below the
threshold; the bound is inclusive, shown by the boundary instances of the
claim at threshold 8.0 with gross 7.99 rejected and gross 8.0 accepted. -/
theorem C2_filter_reject_iff :
    (∀ (prix brutv netv : Option ℚ) (pmin pmax minY : ℚ),
      keepCandidate prix brutv netv pmin pmax minY = false ↔
        ((∃ p, prix = some p ∧ (p < pmin ∨ pmax < p)) ∨
          (brutv.getD 0 < minY ∧ netv.getD 0 < minY))) ∧
    keepCandidate none (some 7.99) none 0 1000000000000 8 = false ∧
    keepCandidate none (some 8) none 0 1000000000000 8 = true := by
  refine ⟨?_, ?_, ?_⟩
  · intro prix brutv netv pmin pmax minY
    unfold keepCandidate priceOutside yieldTooLow
    rw [pyOrZero_eq_getD, pyOrZero_eq_getD]
    cases prix with
    | none => simp
    | some p =>
      by_cases h1 : p < pmin
      · simp [h1]
      · by_cases h2 : pmax < p
        · simp [h1, h2]
        · simp [h1, h2]
  · norm_num [keepCandidate, priceOutside, yieldTooLow, pyOrZero]
  · norm_num [keepCandidate, priceOutside, yieldTooLow, pyOrZero]

/-- C9: the money parser is modelled as a total function, the Python code
catching every conversion failure and the regex search never raising, and
every numeric value it returns is non-negative, its digits coming from
the digit and separator classes alone. -/
theorem C9_money_total_nonneg (cs : List Char) (v : ℚ) (h : money cs = some v) : 0 ≤ v :=
  money_nonneg cs v h

theorem C9_money_total_nonneg_witness :
    money "99 €".data = some ((digitsToNat "99".data : ℕ) : ℚ) ∧
      (0:ℚ) ≤ ((digitsToNat "99".data : ℕ) : ℚ) :=
  ⟨rfl, C9_money_total_nonneg (String.data "99 €") (((digitsToNat (String.data "99") : ℕ) : ℚ)) rfl⟩

/-- C3 counterexample: the claim says the pattern requires at least one
leading digit, so that a run with no leading digit finds nothing; but the
head class of the regex of main.py line 72 also accepts whitespace, and
on the input of a space, the digit five and the euro sign the parser
returns five (under the claim this input holds no valid run: the single
digit has only one trailing character before the sign). -/
theorem C3_cex_space_digit : money " 5 €".data = some 5 := by
  have h : money " 5 €".data = some ((digitsToNat "5".data : ℕ) : ℚ) := rfl
  rw [h, (by decide : digitsToNat "5".data = 5)]
  norm_num

/-- C3 amended: the parser matches, leftmost first, a run formed of one
digit-or-space character followed by two or more digit, space, period or
comma characters immediately preceding optional whitespace and the euro
sign, then strips space variants and periods and converts the comma to a
decimal point; a bare single digit at the start of the text yields None,
while a space-preceded single digit parses; the three examples of the
claim hold. -/
theorem C3_amended_money_examples :
    money "1 250 000 €".data = some 1250000 ∧
    money "1.250.000,50 €".data = some 1250000.5 ∧
    money "no amount here".data = none ∧
    money "5 €".data = none ∧
    money "12 € and 99 €".data = some 12 := by
  refine ⟨?_, ?_, by decide, by decide, ?_⟩
  · have h : money "1 250 000 €".data = some ((digitsToNat "1250000".data : ℕ) : ℚ) := rfl
    rw [h, (by decide : digitsToNat "1250000".data = 1250000)]
    norm_num
  · have h : money "1.250.000,50 €".data =
        some (((digitsToNat "1250000".data : ℕ) : ℚ) +
          ((digitsToNat "50".data : ℕ) : ℚ) / (10:ℚ) ^ ("50".data.length)) := rfl
    rw [h, (by decide : digitsToNat "1250000".data = 1250000),
        (by decide : digitsToNat "50".data = 50),
        (by decide : ("50".data.length) = 2)]
    norm_num
  · have h : money "12 € and 99 €".data = some ((digitsToNat "12".data : ℕ) : ℚ) := rfl
    rw [h, (by decide : digitsToNat "12".data = 12)]
    norm_num

/-- C4: tier assignment in strict precedence, main.py lines 192-199 and
265: N°1 on any prime-axis hit of the detected city, else 1bis on any
generic keyword hit, else 2; an undetected (empty) city skips scoring
entirely and the tier is the empty string, never 2.  The concrete
instances of the claim close the theorem. -/
theorem C4_tier_precedence (city raw : String) :
    emplOf "" raw = "" ∧
    (city ≠ "" →
      ((∃ ax ∈ dictGet AXES_PRIME city, ax ≠ "" ∧
          containsSub (lowerS ax) (lowerS raw) = true) →
        emplOf city raw = "N°1") ∧
      ((∀ ax ∈ dictGet AXES_PRIME city, ¬ (ax ≠ "" ∧
          containsSub (lowerS ax) (lowerS raw) = true)) →
        (∃ k ∈ keywords1bis, containsSub k (lowerS raw) = true) →
        emplOf city raw = "1bis") ∧
      ((∀ ax ∈ dictGet AXES_PRIME city, ¬ (ax ≠ "" ∧
          containsSub (lowerS ax) (lowerS raw) = true)) →
        (∀ k ∈ keywords1bis, containsSub k (lowerS raw) = false) →
        emplOf city raw = "2")) ∧
    emplOf "Paris" "local Avenue Montaigne Paris" = "N°1" ∧
    emplOf "Pau" "beau local en centre-ville" = "1bis" ∧
    emplOf "Pau" "local quelconque" = "2" := by
  refine ⟨rfl, ?_, by decide, by decide, by decide⟩
  intro hcity
  have hif : (city != "") = true := bne_iff_ne.mpr hcity
  refine ⟨?_, ?_, ?_⟩
  · rintro ⟨ax, hmem, hne, hsub⟩
    have hany : (dictGet AXES_PRIME city).any
        (fun ax => (ax != "") && containsSub (lowerS ax) (lowerS raw)) = true :=
      List.any_eq_true.mpr ⟨ax, hmem, by
        rw [Bool.and_eq_true, bne_iff_ne]
        exact ⟨hne, hsub⟩⟩
    simp only [emplOf, score_emplacement]
    rw [if_pos hif, if_pos hany]
  · intro hax hkey
    have hnoany : ¬ ((dictGet AXES_PRIME city).any
        (fun ax => (ax != "") && containsSub (lowerS ax) (lowerS raw)) = true) := by
      rw [List.any_eq_true]
      rintro ⟨ax, hmem, hb⟩
      rw [Bool.and_eq_true, bne_iff_ne] at hb
      exact hax ax hmem hb
    rcases hkey with ⟨k, hmem, hk⟩
    have hkany : keywords1bis.any (fun k => containsSub k (lowerS raw)) = true :=
      List.any_eq_true.mpr ⟨k, hmem, hk⟩
    simp only [emplOf, score_emplacement]
    rw [if_pos hif, if_neg hnoany, if_pos hkany]
  · intro hax hkey
    have hnoany : ¬ ((dictGet AXES_PRIME city).any
        (fun ax => (ax != "") && containsSub (lowerS ax) (lowerS raw)) = true) := by
      rw [List.any_eq_true]
      rintro ⟨ax, hmem, hb⟩
      rw [Bool.and_eq_true, bne_iff_ne] at hb
      exact hax ax hmem hb
    have hnokey : ¬ (keywords1bis.any (fun k => containsSub k (lowerS raw)) = true) := by
      rw [List.any_eq_true]
      rintro ⟨k, hmem, hb⟩
      rw [hkey k hmem] at hb
      exact Bool.false_ne_true hb
    simp only [emplOf, score_emplacement]
    rw [if_pos hif, if_neg hnoany, if_neg hnokey]

theorem C4_tier_precedence_witness :
    "Paris" ≠ "" ∧ emplOf "Paris" "ideal rue de Rivoli" = "N°1" :=
  ⟨by decide, (((C4_tier_precedence "Paris" "ideal rue de Rivoli").2.1) (by decide)).1
    (by decide)⟩

/-- C7: the field extractor is modelled as a total function whose input is
the outcome of the markup text extraction, the only raising step, caught
by the except branch of main.py lines 125-131; for every successfully
extracted text the result is a record carrying the normalized raw text,
and on a total parse failure every field is None and the raw text is
empty. -/
theorem C7_extractor_total_failure_record :
    (∀ s : String, (parse_generic (Except.ok s)).raw = String.mk (normWS false s.data)) ∧
    (∀ e : Unit, parse_generic (Except.error e) =
      { prix := none, loyer := none, charges := none, taxe := none,
        rendement_annonce := none, bail := none, locataire := none,
        activite := none, raw := "" }) :=
  ⟨fun _ => rfl, fun _ => rfl⟩

/-- C8: the whole-text fallback of main.py line 97 exists for the price
field only: when the price label search finds no currency amount, the
price falls back to money over the entire normalized text, while rent,
charges and property tax are None whenever their label search fails, with
no fallback. -/
theorem C8_price_fallback_only (s : String) :
    (find_eur prixAlts (normWS false s.data) = none →
      (parse_generic (Except.ok s)).prix = money (normWS false s.data)) ∧
    (find_eur loyerAlts (normWS false s.data) = none →
      (parse_generic (Except.ok s)).loyer = none) ∧
    (find_eur chargesAlts (normWS false s.data) = none →
      (parse_generic (Except.ok s)).charges = none) ∧
    (find_eur taxeAlts (normWS false s.data) = none →
      (parse_generic (Except.ok s)).taxe = none) := by
  refine ⟨?_, ?_, ?_, ?_⟩ <;> intro h <;> simp [parse_generic, pyOr, h]

theorem C8_price_fallback_only_witness :
    find_eur prixAlts (normWS false "no amount here".data) = none ∧
      (parse_generic (Except.ok "no amount here")).prix =
        money (normWS false "no amount here".data) ∧
      (parse_generic (Except.ok "no amount here")).loyer = none :=
  ⟨by decide, (C8_price_fallback_only "no amount here").1 (by decide),
    (C8_price_fallback_only "no amount here").2.1 (by decide)⟩

/-- C5: the final output sequence is sorted by the order of main.py lines
283-285: ascending tier rank with N°1 at zero, 1bis at one, 2 at two and
the unscored empty tier at three, then descending net yield, then
descending gross yield; the order is total, and inside a tier a record
with a missing net yield sorts below every record with a present one. -/
theorem C5_output_sorted (rows : List Row) :
    (finalRows rows).Sorted rowLE ∧
    (∀ a b : Row, rowLE a b ∨ rowLE b a) ∧
    (∀ a b : Row, tierRank a.empl = tierRank b.empl → a.netPct = none →
      (∃ x, b.netPct = some x) → rowLE b a ∧ ¬ rowLE a b) := by
  refine ⟨List.sorted_insertionSort _ _, fun a b => total_of rowLE a b, ?_⟩
  rintro a b he hnone ⟨x, hx⟩
  constructor
  · refine Or.inr ⟨he.symm, Or.inl ?_⟩
    rw [hx, hnone]
    exact trivial
  · rintro (h | ⟨-, h | ⟨heq, -⟩⟩)
    · rw [he] at h
      exact lt_irrefl _ h
    · rw [hnone] at h
      exact h
    · rw [hnone, hx] at heq
      cases heq

theorem C5_output_sorted_witness :
    rowLE ⟨"b", none, some 1, some 1, "2"⟩ ⟨"a", none, none, none, "2"⟩ ∧
      ¬ rowLE ⟨"a", none, none, none, "2"⟩ ⟨"b", none, some 1, some 1, "2"⟩ :=
  (C5_output_sorted []).2.2 ⟨"a", none, none, none, "2"⟩ ⟨"b", none, some 1, some 1, "2"⟩
    rfl rfl ⟨1, rfl⟩

/-- C6: in the final output the URL is a unique key, the record retained
for each URL is the first occurrence in candidate order (pandas
drop_duplicates keeps the first row of each key, main.py line 281), and
every candidate URL is represented by exactly that record. -/
theorem C6_dedup_first_occurrence (rows : List Row) :
    (finalRows rows).Pairwise (fun a b => a.url ≠ b.url) ∧
    (∀ r ∈ finalRows rows, rows.find? (fun x => x.url == r.url) = some r) ∧
    (∀ r ∈ rows, ∃ q ∈ finalRows rows, q.url = r.url) := by
  have hperm : List.Perm (finalRows rows) (dedupByURL rows) :=
    List.perm_insertionSort rowLE (dedupByURL rows)
  refine ⟨?_, ?_, ?_⟩
  · refine (hperm.pairwise_iff ?_).mpr (dedupGo_pairwise rows [])
    intro a b h he
    exact h he.symm
  · intro r hr
    exact (dedupGo_mem_spec rows [] r (hperm.mem_iff.mp hr)).2
  · intro r hr
    rcases dedupGo_covers rows [] r hr with hs | ⟨q, hq, he⟩
    · cases hs
    · exact ⟨q, hperm.mem_iff.mpr hq, he⟩

theorem C6_dedup_first_occurrence_witness :
    (⟨"u", none, none, none, "2"⟩ : Row) ∈
        finalRows [⟨"u", none, none, none, "2"⟩, ⟨"u", some 1, none, none, "2"⟩,
          ⟨"v", none, none, none, "N°1"⟩] ∧
      ([(⟨"u", none, none, none, "2"⟩ : Row), ⟨"u", some 1, none, none, "2"⟩,
          ⟨"v", none, none, none, "N°1"⟩].find?
          (fun x => x.url == (⟨"u", none, none, none, "2"⟩ : Row).url) =
        some ⟨"u", none, none, none, "2"⟩) :=
  ⟨by decide,
    (C6_dedup_first_occurrence [⟨"u", none, none, none, "2"⟩, ⟨"u", some 1, none, none, "2"⟩,
      ⟨"v", none, none, none, "N°1"⟩]).2.1 ⟨"u", none, none, none, "2"⟩ (by decide)⟩
